import Mathlib

/-!
# Verification of the solana-cluster snapshot/fetch/scraper core

A shallow embedding of the repository's core logic:

* `SnapshotFile` and its three-way comparison (the implementation of
  `(*SnapshotFile).Compare` is not in the sources we hold, only its unit
  tests; the comparison is therefore modelled from the spec's §3 procedure
  and checked against the test vectors of `TestSnapshotFile_Compare`).
* `ShouldFetchSnapshot` (the fetch advisor `Decide`), likewise modelled
  from the spec's §4.2 decision procedure.
* `runFetch`, the advisory/download branch structure of the `fetch`
  command's `run` function (`internal/cmd/fetch/fetch.go`).
* Small-step operational models of the errgroup-based parallel download
  (`run`'s download phase), of one scrape cycle's fan-out
  (`Scraper.scrape`), and of the scraper lifecycle
  (`Scraper.Start`/`Close`/`run`).

Machine integers: slots are Go `uint64`; all slot arithmetic the claims
mention is subtraction of a smaller-or-equal quantity or is compared
against bounds, and the spec describes it as a "gap", so it is modelled
with truncated `Nat` subtraction.  Hashes are fixed-length byte arrays,
modelled as `List Nat` compared lexicographically byte by byte
(the semantics of Go's `bytes.Compare`).
-/

/-- One snapshot artifact, per §3 of the spec and the Go struct
`types.SnapshotFile` (`Slot`, `BaseSlot`, `Hash`, `FileName`). -/
structure SnapshotFile where
  Slot : Nat
  BaseSlot : Nat
  Hash : List Nat
  FileName : String
deriving DecidableEq, Repr

/-- The comparator's "worse" result (`-1` in the Go tests). -/
def worse : Int := -1

/-- The comparator's "same" result (`0` in the Go tests). -/
def same : Int := 0

/-- The comparator's "better" result (`+1` in the Go tests). -/
def better : Int := 1

/-- Lexicographic byte-by-byte comparison of two byte sequences, the
semantics of Go's `bytes.Compare`: the first differing byte decides, a
strict prefix is smaller. -/
def bytesCompare : List Nat → List Nat → Int
  | [], [] => 0
  | [], _ :: _ => -1
  | _ :: _, [] => 1
  | x :: xs, y :: ys =>
    if x < y then -1 else if y < x then 1 else bytesCompare xs ys

/-- Modelled from the spec: §3 "Total order (Compare)" — the
implementation of `(*SnapshotFile).Compare` is absent from the sources
(only its unit tests are present), so this follows the spec's five-step
procedure literally.
Step 1: higher `Slot` is better, and if the slots differ this decides.
Step 2: slots equal, a full snapshot (`BaseSlot = 0`) beats an
incremental one (`BaseSlot ≠ 0`) regardless of the latter's `BaseSlot`.
Step 3: both incremental, higher `BaseSlot` is better; equal falls
through.  Steps 4–5: compare `Hash` lexicographically; all equal is
`same`. -/
def SnapshotFile.Compare (a b : SnapshotFile) : Int :=
  if a.Slot ≠ b.Slot then (if b.Slot < a.Slot then better else worse)
  else if a.BaseSlot = 0 ∧ b.BaseSlot ≠ 0 then better
  else if a.BaseSlot ≠ 0 ∧ b.BaseSlot = 0 then worse
  else if a.BaseSlot ≠ b.BaseSlot then
    (if b.BaseSlot < a.BaseSlot then better else worse)
  else bytesCompare a.Hash b.Hash

/-- `a` is at least as good as `b` under the §3 comparator; the ordering
used to sort inventories best-first. -/
def snapGe (a b : SnapshotFile) : Prop := 0 ≤ a.Compare b

instance : DecidableRel snapGe := fun a b =>
  inferInstanceAs (Decidable (0 ≤ a.Compare b))

/-- Sort a snapshot inventory best-first with the §3 comparator
(spec §4.2: "the function sorts both internally using the §3 comparator
(best-first) before deciding"). -/
def sortSnaps (l : List SnapshotFile) : List SnapshotFile :=
  l.insertionSort snapGe

/-- The advisor's outcome enumeration (`fetch.FetchAdvice` in Go):
`AdviceNothingFound`, `AdviceUpToDate`, `AdviceFetch`. -/
inductive FetchAdvice
  | AdviceNothingFound
  | AdviceUpToDate
  | AdviceFetch
deriving DecidableEq, Repr

/-- The best remote candidate: head of the best-first sorted catalog. -/
def remoteBest (remoteSnaps : List SnapshotFile) : Option SnapshotFile :=
  (sortSnaps remoteSnaps).head?

/-- Slot of the best local snapshot, or `0` if the local inventory is
empty (spec §4.2 step 3). -/
def localBestSlot (localSnaps : List SnapshotFile) : Nat :=
  ((sortSnaps localSnaps).head?.map SnapshotFile.Slot).getD 0

/-- Spec §4.2 step 2: discard every remote candidate whose slot is more
than `maxAge` behind the best remote slot. -/
def applyMaxAgeFilter (bestSlot : Nat) (maxAge : Nat)
    (l : List SnapshotFile) : List SnapshotFile :=
  l.filter (fun c => !(decide (maxAge < bestSlot - c.Slot)))

/-- Modelled from the spec: §4.2 `Decide` — the implementation of
`fetch.ShouldFetchSnapshot` is absent from the sources (only its caller
in `internal/cmd/fetch/fetch.go` is present), so this follows the spec's
decision procedure: (1) empty catalog ⇒ `NothingFound`; (2) sort the
catalog best-first, take the best, discard candidates more than `maxAge`
behind it; (3) best local slot, `0` when the inventory is empty;
(4) gap below `minAge` ⇒ `UpToDate`; (5) otherwise `Fetch` the best
surviving candidate.  Pure: it does not mutate its arguments. -/
def ShouldFetchSnapshot (localSnaps remoteSnaps : List SnapshotFile)
    (minSnapAge maxSnapAge : Nat) : Option SnapshotFile × FetchAdvice :=
  match remoteBest remoteSnaps with
  | none => (none, .AdviceNothingFound)
  | some rb =>
    let candidates := applyMaxAgeFilter rb.Slot maxSnapAge (sortSnaps remoteSnaps)
    if rb.Slot - localBestSlot localSnaps < minSnapAge then
      (none, .AdviceUpToDate)
    else
      (candidates.head?, .AdviceFetch)

/-- Outcome of the advisory/download part of the `fetch` command's `run`
(after both the local listing and the tracker query succeeded):
`noDownload` — a branch that returns without downloading; `indexPanic` —
the branch evaluates an out-of-range index expression and panics;
`download s` — the command downloads the files of snapshot `s`. -/
inductive RunOutcome
  | noDownload
  | indexPanic
  | download (s : SnapshotFile)
deriving DecidableEq, Repr

/-- The advisory branch structure of `run` in
`internal/cmd/fetch/fetch.go`: the chosen snapshot returned by
`ShouldFetchSnapshot` is discarded (`_, advice := ...`);
`AdviceNothingFound` logs and returns; `AdviceUpToDate` logs
`localSnaps[0].Slot` — an out-of-range access when the local inventory
is empty — and returns; `AdviceFetch` falls through and downloads
`remoteSnaps[0]`, the first element of the catalog as returned by the
tracker. -/
def runFetch (localSnaps remoteSnaps : List SnapshotFile)
    (minSnapAge maxSnapAge : Nat) : RunOutcome :=
  match (ShouldFetchSnapshot localSnaps remoteSnaps minSnapAge maxSnapAge).2 with
  | .AdviceNothingFound => .noDownload
  | .AdviceUpToDate =>
    match localSnaps with
    | [] => .indexPanic
    | _ :: _ => .noDownload
  | .AdviceFetch =>
    match remoteSnaps with
    | [] => .indexPanic
    | s :: _ => .download s

/-! ## Properties of the byte-sequence comparison -/

theorem bytesCompare_refl (l : List Nat) : bytesCompare l l = 0 := by
  induction l with
  | nil => rfl
  | cons x xs ih => simp [bytesCompare, ih]

theorem bytesCompare_flip (a b : List Nat) :
    bytesCompare a b = -(bytesCompare b a) := by
  induction a generalizing b with
  | nil => cases b <;> simp [bytesCompare]
  | cons x xs ih =>
    cases b with
    | nil => simp [bytesCompare]
    | cons y ys =>
      simp only [bytesCompare]
      split_ifs <;> first | omega | exact ih ys

theorem bytesCompare_eq_zero_iff (a b : List Nat) :
    bytesCompare a b = 0 ↔ a = b := by
  induction a generalizing b with
  | nil => cases b <;> simp [bytesCompare]
  | cons x xs ih =>
    cases b with
    | nil => simp [bytesCompare]
    | cons y ys =>
      simp only [bytesCompare]
      split_ifs with h1 h2
      · exact iff_of_false (by decide)
          (by intro h; injection h with hx _; omega)
      · exact iff_of_false (by decide)
          (by intro h; injection h with hx _; omega)
      · have hxy : x = y := by omega
        subst hxy
        simp [ih]

theorem bytesCompare_values (a b : List Nat) :
    bytesCompare a b = -1 ∨ bytesCompare a b = 0 ∨ bytesCompare a b = 1 := by
  induction a generalizing b with
  | nil => cases b <;> simp [bytesCompare]
  | cons x xs ih =>
    cases b with
    | nil => simp [bytesCompare]
    | cons y ys =>
      simp only [bytesCompare]
      split_ifs <;> first | simp | exact ih ys

theorem bytesCompare_trans_pos (a b c : List Nat) :
    bytesCompare a b = 1 → bytesCompare b c = 1 → bytesCompare a c = 1 := by
  induction a generalizing b c with
  | nil =>
    intro h1 _
    exfalso
    cases b <;> simp [bytesCompare] at h1
  | cons x xs ih =>
    cases b with
    | nil =>
      intro _ h2
      exfalso
      cases c <;> simp [bytesCompare] at h2
    | cons y ys =>
      cases c with
      | nil => intro _ _; rfl
      | cons z zs =>
        intro h1 h2
        simp only [bytesCompare] at h1 h2 ⊢
        split_ifs at h1 h2 ⊢ <;> first | rfl | omega | exact ih ys zs h1 h2

/-! ## Properties of the §3 comparator -/

theorem SnapshotFile.Compare_refl (a : SnapshotFile) : a.Compare a = same := by
  simp [SnapshotFile.Compare, bytesCompare_refl, same]

theorem SnapshotFile.Compare_flip (a b : SnapshotFile) :
    a.Compare b = -(b.Compare a) := by
  simp only [SnapshotFile.Compare, better, worse, same]
  split_ifs <;> first | omega | exact bytesCompare_flip a.Hash b.Hash

theorem SnapshotFile.Compare_values (a b : SnapshotFile) :
    a.Compare b = -1 ∨ a.Compare b = 0 ∨ a.Compare b = 1 := by
  simp only [SnapshotFile.Compare, better, worse, same]
  split_ifs <;> first | simp | exact bytesCompare_values a.Hash b.Hash


theorem SnapshotFile.Compare_eq_zero_iff (a b : SnapshotFile) :
    a.Compare b = same ↔
      a.Slot = b.Slot ∧ a.BaseSlot = b.BaseSlot ∧ a.Hash = b.Hash := by
  simp only [SnapshotFile.Compare, better, worse, same]
  split_ifs with h1 h2 h3 h4 h5 h6
  · exact iff_of_false (by omega) (fun h => h1 h.1)
  · exact iff_of_false (by simp) (fun h => h1 h.1)
  · exact iff_of_false (by omega) (fun h => absurd h.2.1 (by omega))
  · exact iff_of_false (by simp) (fun h => absurd h.2.1 (by omega))
  · exact iff_of_false (by omega) (fun h => h5 h.2.1)
  · exact iff_of_false (by simp) (fun h => h5 h.2.1)
  · rw [bytesCompare_eq_zero_iff]
    constructor
    · intro h
      exact ⟨by omega, by omega, h⟩
    · intro h
      exact h.2.2

/-- Case characterization of `Compare a b = better`, used to prove the
transitivity tier by tier. -/
theorem SnapshotFile.Compare_eq_one_iff (a b : SnapshotFile) :
    a.Compare b = better ↔
      b.Slot < a.Slot ∨
      (a.Slot = b.Slot ∧ a.BaseSlot = 0 ∧ b.BaseSlot ≠ 0) ∨
      (a.Slot = b.Slot ∧ a.BaseSlot ≠ 0 ∧ b.BaseSlot ≠ 0 ∧
        b.BaseSlot < a.BaseSlot) ∨
      (a.Slot = b.Slot ∧ a.BaseSlot = b.BaseSlot ∧
        bytesCompare a.Hash b.Hash = 1) := by
  simp only [SnapshotFile.Compare, better, worse, same]
  split_ifs with h1 h2 h3 h4 h5 h6
  · exact iff_of_true rfl (Or.inl h2)
  · refine iff_of_false (by simp) ?_
    rintro (h | ⟨hs, _⟩ | ⟨hs, _⟩ | ⟨hs, _, _⟩) <;> omega
  · exact iff_of_true rfl (Or.inr (Or.inl ⟨by omega, h3.1, h3.2⟩))
  · refine iff_of_false (by simp) ?_
    rintro (h | ⟨hs, hb, hb'⟩ | ⟨hs, hb, hb', _⟩ | ⟨hs, hb, _⟩) <;> omega
  · exact iff_of_true rfl
      (Or.inr (Or.inr (Or.inl ⟨by omega, by omega, by omega, h6⟩)))
  · refine iff_of_false (by simp) ?_
    rintro (h | ⟨hs, hb, hb'⟩ | ⟨hs, hb, hb', hlt⟩ | ⟨hs, hb, _⟩) <;> omega
  · constructor
    · intro h
      exact Or.inr (Or.inr (Or.inr ⟨by omega, by omega, h⟩))
    · rintro (h | ⟨hs, hb, hb'⟩ | ⟨hs, hb, hb', hlt⟩ | ⟨hs, hb, hh⟩) <;> omega

theorem SnapshotFile.Compare_trans_pos (a b c : SnapshotFile) :
    a.Compare b = better → b.Compare c = better → a.Compare c = better := by
  intro h1 h2
  rw [SnapshotFile.Compare_eq_one_iff] at h1 h2 ⊢
  rcases h1 with h1 | ⟨e1, f1a, f1b⟩ | ⟨e1, l1a, l1b, l1c⟩ | ⟨e1, b1, hh1⟩ <;>
    rcases h2 with h2 | ⟨e2, f2a, f2b⟩ | ⟨e2, l2a, l2b, l2c⟩ | ⟨e2, b2, hh2⟩ <;>
    first
    | (left; omega)
    | (exfalso; omega)
    | (right; left; exact ⟨by omega, by omega, by omega⟩)
    | (right; right; left; exact ⟨by omega, by omega, by omega, by omega⟩)
    | (right; right; right;
       exact ⟨by omega, by omega, bytesCompare_trans_pos _ _ _ hh1 hh2⟩)

theorem SnapshotFile.Compare_trans_zero (a b c : SnapshotFile) :
    a.Compare b = same → b.Compare c = same → a.Compare c = same := by
  intro h1 h2
  rw [SnapshotFile.Compare_eq_zero_iff] at h1 h2 ⊢
  exact ⟨h1.1.trans h2.1, h1.2.1.trans h2.2.1, h1.2.2.trans h2.2.2⟩

/-- The modelled comparator agrees with every assertion of
`TestSnapshotFile_Compare` in the repository's test file
(`solana.Hash{0x69}` etc. are zero-padded; only the leading bytes are
kept since the trailing zeros compare equal). -/
theorem compare_matches_go_tests :
    (⟨10, 0, [0, 0], ""⟩ : SnapshotFile).Compare ⟨12, 0, [0, 0], ""⟩ = worse ∧
    (⟨10, 0, [0, 0], ""⟩ : SnapshotFile).Compare ⟨8, 0, [0, 0], ""⟩ = better ∧
    (⟨10, 10, [0, 0], ""⟩ : SnapshotFile).Compare ⟨10, 12, [0, 0], ""⟩ = worse ∧
    (⟨10, 10, [0, 0], ""⟩ : SnapshotFile).Compare ⟨10, 8, [0, 0], ""⟩ = better ∧
    (⟨10, 0, [0, 0], ""⟩ : SnapshotFile).Compare ⟨10, 12, [0, 0], ""⟩ = better ∧
    (⟨10, 12, [0, 0], ""⟩ : SnapshotFile).Compare ⟨10, 0, [0, 0], ""⟩ = worse ∧
    (⟨10, 0, [0x69, 0], ""⟩ : SnapshotFile).Compare ⟨10, 0, [0x68, 0], ""⟩ = better ∧
    (⟨10, 12, [0x69, 0], ""⟩ : SnapshotFile).Compare ⟨10, 12, [0x68, 0], ""⟩ = better ∧
    (⟨10, 0, [0x69, 0], ""⟩ : SnapshotFile).Compare ⟨10, 0, [0x70, 0], ""⟩ = worse ∧
    (⟨10, 12, [0x69, 0], ""⟩ : SnapshotFile).Compare ⟨10, 12, [0x70, 0], ""⟩ = worse ∧
    (⟨10, 0, [0, 0], ""⟩ : SnapshotFile).Compare ⟨10, 0, [0, 0], ""⟩ = same := by
  decide


/-- The comparator only reads `Slot`, `BaseSlot` and `Hash`; replacing
the left operand by one agreeing on those fields does not change it. -/
theorem SnapshotFile.Compare_congr_left {a b : SnapshotFile}
    (c : SnapshotFile) (hs : a.Slot = b.Slot) (hb : a.BaseSlot = b.BaseSlot)
    (hh : a.Hash = b.Hash) : a.Compare c = b.Compare c := by
  simp only [SnapshotFile.Compare, hs, hb, hh]

/-- Right-operand analogue of `Compare_congr_left`. -/
theorem SnapshotFile.Compare_congr_right {b c : SnapshotFile}
    (a : SnapshotFile) (hs : b.Slot = c.Slot) (hb : b.BaseSlot = c.BaseSlot)
    (hh : b.Hash = c.Hash) : a.Compare b = a.Compare c := by
  simp only [SnapshotFile.Compare, hs, hb, hh]

/-! ## Sorting: the head of the best-first sort is a best element -/

instance : IsTotal SnapshotFile snapGe where
  total a b := by
    unfold snapGe
    rw [SnapshotFile.Compare_flip a b]
    rcases SnapshotFile.Compare_values b a with h | h | h <;> rw [h] <;> decide

instance : IsTrans SnapshotFile snapGe where
  trans a b c hab hbc := by
    unfold snapGe at hab hbc ⊢
    rcases SnapshotFile.Compare_values a b with h1 | h1 | h1
    · rw [h1] at hab
      omega
    · have h1' := (SnapshotFile.Compare_eq_zero_iff a b).mp h1
      rw [SnapshotFile.Compare_congr_left c h1'.1 h1'.2.1 h1'.2.2]
      exact hbc
    · rcases SnapshotFile.Compare_values b c with h2 | h2 | h2
      · rw [h2] at hbc
        omega
      · have h2' := (SnapshotFile.Compare_eq_zero_iff b c).mp h2
        rw [← SnapshotFile.Compare_congr_right a h2'.1 h2'.2.1 h2'.2.2]
        omega
      · rw [SnapshotFile.Compare_trans_pos a b c h1 h2]
        decide

theorem snapGe_refl (a : SnapshotFile) : snapGe a a := by
  unfold snapGe
  rw [SnapshotFile.Compare_refl]
  decide

theorem sortSnaps_sorted (l : List SnapshotFile) :
    List.Sorted snapGe (sortSnaps l) :=
  List.sorted_insertionSort snapGe l

theorem sortSnaps_perm (l : List SnapshotFile) :
    List.Perm (sortSnaps l) l :=
  List.perm_insertionSort snapGe l

theorem sortSnaps_eq_nil_iff (l : List SnapshotFile) :
    sortSnaps l = [] ↔ l = [] := by
  constructor
  · intro h
    have hp := sortSnaps_perm l
    rw [h] at hp
    exact hp.symm.eq_nil
  · intro h
    subst h
    rfl

/-- Whatever stands at the head of the best-first sort is at least as
good as every element of the original list. -/
theorem sortSnaps_head_ge (l : List SnapshotFile) (b : SnapshotFile)
    (hb : (sortSnaps l).head? = some b) : ∀ x ∈ l, snapGe b x := by
  intro x hx
  have hmem : x ∈ sortSnaps l := ((sortSnaps_perm l).mem_iff).mpr hx
  rcases hsort : sortSnaps l with _ | ⟨hd, tl⟩
  · rw [hsort] at hmem
    cases hmem
  · rw [hsort] at hb hmem
    have hhd : hd = b := by
      injection hb
    subst hhd
    have hs := sortSnaps_sorted l
    rw [hsort] at hs
    rcases List.mem_cons.mp hmem with h | h
    · subst h
      exact snapGe_refl x
    · exact List.rel_of_sorted_cons hs x h

/-! ## The fetch advisor -/

/-- The best remote candidate always survives the `maxAge` filter, at
the head: its own staleness gap is `0`. -/
theorem applyMaxAgeFilter_cons_best (maxAge : Nat) (rb : SnapshotFile)
    (rest : List SnapshotFile) :
    applyMaxAgeFilter rb.Slot maxAge (rb :: rest) =
      rb :: applyMaxAgeFilter rb.Slot maxAge rest := by
  unfold applyMaxAgeFilter
  rw [List.filter_cons_of_pos]
  simp

/-- Unfolding of the advisor once the sorted catalog is non-empty. -/
theorem ShouldFetchSnapshot_eq_of_remoteBest
    (localSnaps remoteSnaps : List SnapshotFile) (minSnapAge maxSnapAge : Nat)
    (rb : SnapshotFile) (h : remoteBest remoteSnaps = some rb) :
    ShouldFetchSnapshot localSnaps remoteSnaps minSnapAge maxSnapAge =
      if rb.Slot - localBestSlot localSnaps < minSnapAge then
        (none, .AdviceUpToDate)
      else
        ((applyMaxAgeFilter rb.Slot maxSnapAge (sortSnaps remoteSnaps)).head?,
          .AdviceFetch) := by
  unfold ShouldFetchSnapshot
  rw [h]

/-- C6: for every local inventory and non-empty remote catalog, with
`localBestSlot` the slot of the best local snapshot (`0` when the local
inventory is empty) and `rb` the best remote snapshot, if the gap
`rb.Slot - localBestSlot` is below `minAge` then the advisor returns
`(none, UpToDate)`.  The conjunct certifies that `rb` really is a best
element: at least as good as every catalog entry under the §3
comparator. -/
theorem decide_upToDate_below_minAge
    (localSnaps remoteSnaps : List SnapshotFile) (minSnapAge maxSnapAge : Nat)
    (rb : SnapshotFile) (hrb : remoteBest remoteSnaps = some rb)
    (hgap : rb.Slot - localBestSlot localSnaps < minSnapAge) :
    ShouldFetchSnapshot localSnaps remoteSnaps minSnapAge maxSnapAge =
      (none, .AdviceUpToDate) ∧ ∀ x ∈ remoteSnaps, snapGe rb x := by
  constructor
  · rw [ShouldFetchSnapshot_eq_of_remoteBest localSnaps remoteSnaps
      minSnapAge maxSnapAge rb hrb, if_pos hgap]
  · exact sortSnaps_head_ge remoteSnaps rb hrb

/-- Witness for `decide_upToDate_below_minAge`, spec §8 scenario 1:
local `{Slot 10, full}` against remote `{Slot 10, full}` with
`minAge = 500` is `UpToDate` (gap `0 < 500`). -/
theorem decide_upToDate_below_minAge_witness :
    ShouldFetchSnapshot [⟨10, 0, [0], ""⟩] [⟨10, 0, [0], ""⟩] 500 10000 =
      (none, .AdviceUpToDate) :=
  (decide_upToDate_below_minAge [⟨10, 0, [0], ""⟩] [⟨10, 0, [0], ""⟩]
    500 10000 ⟨10, 0, [0], ""⟩ (by decide) (by decide)).1

/-- C7: an empty (or nil, which the Go API surfaces as empty) remote
catalog always yields `(none, NothingFound)`; and whenever the gap
reaches `minAge`, the advisor returns `(some rb, Fetch)` where `rb` is
the best element of the sorted remote catalog — the `maxAge` filter
never removes `rb` itself (it stays at the head of the filtered
candidate list), so it never changes the chosen snapshot. -/
theorem decide_fetch_best_and_nothingFound :
    (∀ (localSnaps : List SnapshotFile) (minSnapAge maxSnapAge : Nat),
      ShouldFetchSnapshot localSnaps [] minSnapAge maxSnapAge =
        (none, .AdviceNothingFound)) ∧
    (∀ (localSnaps remoteSnaps : List SnapshotFile)
      (minSnapAge maxSnapAge : Nat) (rb : SnapshotFile),
      remoteBest remoteSnaps = some rb →
      minSnapAge ≤ rb.Slot - localBestSlot localSnaps →
      ShouldFetchSnapshot localSnaps remoteSnaps minSnapAge maxSnapAge =
        (some rb, .AdviceFetch) ∧
      (applyMaxAgeFilter rb.Slot maxSnapAge (sortSnaps remoteSnaps)).head? =
        some rb ∧
      rb ∈ applyMaxAgeFilter rb.Slot maxSnapAge (sortSnaps remoteSnaps) ∧
      ∀ x ∈ remoteSnaps, snapGe rb x) := by
  constructor
  · intro localSnaps minSnapAge maxSnapAge
    rfl
  · intro localSnaps remoteSnaps minSnapAge maxSnapAge rb hrb hgap
    rcases hsort : sortSnaps remoteSnaps with _ | ⟨hd, tl⟩
    · rw [remoteBest, hsort] at hrb
      cases hrb
    · have hhd : hd = rb := by
        rw [remoteBest, hsort] at hrb
        injection hrb
      subst hhd
      have hfilter := applyMaxAgeFilter_cons_best maxSnapAge hd tl
      refine ⟨?_, ?_, ?_, sortSnaps_head_ge remoteSnaps hd hrb⟩
      · rw [ShouldFetchSnapshot_eq_of_remoteBest localSnaps remoteSnaps
          minSnapAge maxSnapAge hd hrb, if_neg (by omega), hsort, hfilter]
        rfl
      · rw [hfilter]
        rfl
      · rw [hfilter]
        exact List.mem_cons_self hd _

/-- Witness for `decide_fetch_best_and_nothingFound`, spec §8 scenario
2: empty local inventory, remote `[{Slot 1000, full}]`, `minAge = 500`,
`maxAge = 10000` is `Fetch` of that snapshot (gap `1000 ≥ 500`). -/
theorem decide_fetch_best_and_nothingFound_witness :
    ShouldFetchSnapshot [] [⟨1000, 0, [0], ""⟩] 500 10000 =
      (some ⟨1000, 0, [0], ""⟩, .AdviceFetch) :=
  ((decide_fetch_best_and_nothingFound.2 [] [⟨1000, 0, [0], ""⟩]
    500 10000 ⟨1000, 0, [0], ""⟩ (by decide) (by decide))).1

/-- Helper: in the `Fetch` branch the advisor returns the best sorted
candidate, which survives the `maxAge` filter at its head. -/
theorem ShouldFetchSnapshot_fetch (localSnaps remoteSnaps : List SnapshotFile)
    (minSnapAge maxSnapAge : Nat) (rb : SnapshotFile)
    (hrb : remoteBest remoteSnaps = some rb)
    (hgap : ¬(rb.Slot - localBestSlot localSnaps < minSnapAge)) :
    ShouldFetchSnapshot localSnaps remoteSnaps minSnapAge maxSnapAge =
      (some rb, .AdviceFetch) ∧
    (applyMaxAgeFilter rb.Slot maxSnapAge (sortSnaps remoteSnaps)).head? =
      some rb ∧
    rb ∈ applyMaxAgeFilter rb.Slot maxSnapAge (sortSnaps remoteSnaps) := by
  rcases hsort : sortSnaps remoteSnaps with _ | ⟨hd, tl⟩
  · rw [remoteBest, hsort] at hrb
    cases hrb
  · have hhd : hd = rb := by
      rw [remoteBest, hsort] at hrb
      injection hrb
    subst hhd
    have hfilter := applyMaxAgeFilter_cons_best maxSnapAge hd tl
    refine ⟨?_, ?_, ?_⟩
    · rw [ShouldFetchSnapshot_eq_of_remoteBest localSnaps remoteSnaps
        minSnapAge maxSnapAge hd hrb, if_neg hgap, hsort, hfilter]
      rfl
    · rw [hfilter]
      rfl
    · rw [hfilter]
      exact List.mem_cons_self hd _

/-! ## Claims about the comparator -/

/-- C8: `Compare` is a strict weak ordering on `SnapshotFile`:
`Compare a a = same` for all `a`; `Compare a b` and `Compare b a` are
inverses (negation swaps `better` with `worse` and fixes `same`); and
the relation is transitive across the slot, base-slot and hash tiers,
both for `better` and for `same`. -/
theorem compare_strict_weak_order :
    (∀ a : SnapshotFile, a.Compare a = same) ∧
    (∀ a b : SnapshotFile, a.Compare b = -(b.Compare a)) ∧
    (∀ a b c : SnapshotFile,
      (a.Compare b = better → b.Compare c = better → a.Compare c = better) ∧
      (a.Compare b = same → b.Compare c = same → a.Compare c = same)) :=
  ⟨SnapshotFile.Compare_refl, SnapshotFile.Compare_flip, fun a b c =>
    ⟨SnapshotFile.Compare_trans_pos a b c,
     SnapshotFile.Compare_trans_zero a b c⟩⟩

/-- Witness for `compare_strict_weak_order`: transitivity applied at
concrete snapshots on the slot tier and on the hash tier. -/
theorem compare_strict_weak_order_witness :
    (⟨12, 0, [1], "a"⟩ : SnapshotFile).Compare ⟨8, 0, [3], "c"⟩ = better ∧
    (⟨5, 7, [2], "x"⟩ : SnapshotFile).Compare ⟨5, 7, [2], "y"⟩ = same :=
  ⟨(compare_strict_weak_order.2.2 ⟨12, 0, [1], "a"⟩ ⟨10, 0, [2], "b"⟩
      ⟨8, 0, [3], "c"⟩).1 (by decide) (by decide),
   (compare_strict_weak_order.2.2 ⟨5, 7, [2], "x"⟩ ⟨5, 7, [2], "z"⟩
      ⟨5, 7, [2], "y"⟩).2 (by decide) (by decide)⟩

/-- C9: at equal slots a full snapshot (`BaseSlot = 0`) always beats an
incremental one (`BaseSlot ≠ 0`), whatever the incremental's `BaseSlot`
— including values greater than `Slot`. -/
theorem full_beats_incremental (a b : SnapshotFile) (hs : a.Slot = b.Slot)
    (ha : a.BaseSlot = 0) (hb : b.BaseSlot ≠ 0) : a.Compare b = better := by
  simp only [SnapshotFile.Compare]
  rw [if_neg (by omega), if_pos ⟨ha, hb⟩]

/-- Witness for `full_beats_incremental`: the test vector
`Compare({Slot 10}, {Slot 10, BaseSlot 12}) = better`, where the
incremental's base slot even exceeds its slot. -/
theorem full_beats_incremental_witness :
    (⟨10, 0, [0], ""⟩ : SnapshotFile).Compare ⟨10, 12, [0], ""⟩ = better :=
  full_beats_incremental ⟨10, 0, [0], ""⟩ ⟨10, 12, [0], ""⟩ rfl rfl
    (by decide)

/-! ## Claims about the fetch command's run function -/

/-- C2 as stated is false: with an unsorted remote catalog whose best
element is not first, the advisor chooses the best element but `run`
downloads `remoteSnaps[0]`, a different snapshot (the chosen value is
discarded by `_, advice := ...`). -/
theorem run_download_not_chosen_counterexample :
    (ShouldFetchSnapshot []
        [⟨1000, 0, [0], "old"⟩, ⟨2000, 0, [0], "new"⟩] 500 10000).1 =
      some ⟨2000, 0, [0], "new"⟩ ∧
    runFetch [] [⟨1000, 0, [0], "old"⟩, ⟨2000, 0, [0], "new"⟩] 500 10000 =
      .download ⟨1000, 0, [0], "old"⟩ ∧
    (⟨1000, 0, [0], "old"⟩ : SnapshotFile) ≠ ⟨2000, 0, [0], "new"⟩ := by
  decide

/-- C2 amended: on `Fetch` advice, `run` downloads the first element of
the remote catalog exactly as the tracker returned it; whenever that
first element is the best-first sorted head (in particular when the
tracker already returns a best-first catalog), the downloaded snapshot
coincides with the advisor's chosen best candidate. -/
theorem run_downloads_catalog_head
    (localSnaps remoteSnaps : List SnapshotFile) (minSnapAge maxSnapAge : Nat)
    (s : SnapshotFile)
    (hdl : runFetch localSnaps remoteSnaps minSnapAge maxSnapAge =
      .download s) :
    remoteSnaps.head? = some s ∧
    (ShouldFetchSnapshot localSnaps remoteSnaps minSnapAge maxSnapAge).2 =
      .AdviceFetch ∧
    (remoteBest remoteSnaps = remoteSnaps.head? →
      (ShouldFetchSnapshot localSnaps remoteSnaps minSnapAge maxSnapAge).1 =
        some s) := by
  cases hadv : (ShouldFetchSnapshot localSnaps remoteSnaps
      minSnapAge maxSnapAge).2 with
  | AdviceNothingFound =>
    exfalso
    unfold runFetch at hdl
    rw [hadv] at hdl
    simp at hdl
  | AdviceUpToDate =>
    exfalso
    unfold runFetch at hdl
    rw [hadv] at hdl
    cases localSnaps <;> simp at hdl
  | AdviceFetch =>
    unfold runFetch at hdl
    rw [hadv] at hdl
    cases remoteSnaps with
    | nil => simp at hdl
    | cons r rs =>
      simp only at hdl
      have hrs : r = s := by
        injection hdl
      subst hrs
      refine ⟨rfl, rfl, ?_⟩
      intro hbest
      have hrb : remoteBest (r :: rs) = some r := by
        rw [hbest]
        rfl
      by_cases hgap :
          r.Slot - localBestSlot localSnaps < minSnapAge
      · exfalso
        rw [ShouldFetchSnapshot_eq_of_remoteBest localSnaps (r :: rs)
          minSnapAge maxSnapAge r hrb, if_pos hgap] at hadv
        cases hadv
      · rw [(ShouldFetchSnapshot_fetch localSnaps (r :: rs)
          minSnapAge maxSnapAge r hrb hgap).1]

/-- Witness for `run_downloads_catalog_head`: a singleton catalog, where
the head is trivially the best element, is downloaded and is the chosen
snapshot. -/
theorem run_downloads_catalog_head_witness :
    ([⟨1000, 0, [0], ""⟩] : List SnapshotFile).head? =
      some ⟨1000, 0, [0], ""⟩ ∧
    (ShouldFetchSnapshot [] [⟨1000, 0, [0], ""⟩] 500 10000).1 =
      some ⟨1000, 0, [0], ""⟩ :=
  have h := run_downloads_catalog_head [] [⟨1000, 0, [0], ""⟩] 500 10000
    ⟨1000, 0, [0], ""⟩ (by decide)
  ⟨h.1, h.2.2 (by decide)⟩

/-- C3: `run` takes no download action on `NothingFound` and `UpToDate`
advice — but on `UpToDate` with an *empty* local inventory it evaluates
the out-of-range expression `localSnaps[0].Slot` while logging and
panics instead of exiting normally.  At local inventory `[]`, remote
catalog `[{Slot 100, full}]`, `minAge 500`: the advice is `UpToDate`
(gap `100 < 500`) and `run` panics. -/
theorem run_upToDate_empty_local_panics :
    (ShouldFetchSnapshot [] [⟨100, 0, [0], ""⟩] 500 10000).2 =
      .AdviceUpToDate ∧
    runFetch [] [⟨100, 0, [0], ""⟩] 500 10000 = .indexPanic ∧
    runFetch [] [] 500 10000 = .noDownload ∧
    runFetch [⟨90, 0, [0], ""⟩] [⟨100, 0, [0], ""⟩] 500 10000 =
      .noDownload := by
  decide

/-! ## Small-step machinery shared by the concurrency models -/

/-- States reachable from `init` by the step relation `step`. -/
inductive Reach {σ : Type} (step : σ → σ → Prop) (init : σ) : σ → Prop
  | refl : Reach step init init
  | tail {s t : σ} : Reach step init s → step s t → Reach step init t

/-! ## The errgroup download fan-out of the fetch command

`run` spawns one goroutine per `snap.Files` entry inside
`errgroup.WithContext`: each calls `DownloadSnapshotFile` and returns
its error; `group.Wait` returns the first non-nil error, and that first
error also cancels the shared context (`errgroup` records the error
under `errOnce` and calls `cancel`). -/

/-- One parallel download task: `file` names the snapshot file, and
`outcome` is the error its transfer produces on its own — `none` for
success, `some e` for failure with abstract error code `e`. -/
structure DlTask where
  file : String
  outcome : Option Nat
deriving DecidableEq

/-- The context-cancellation error code a sibling transfer reports when
it aborts because the shared context was already cancelled. -/
def ctxCanceledErr : Nat := 0

/-- State of one `DownloadSnapshot` operation: tasks not yet returned,
the error recorded by the group's `errOnce` (what `Wait` will return),
and whether the shared context has been cancelled. -/
structure DlState where
  pending : List DlTask
  firstErr : Option Nat
  cancelled : Bool
deriving DecidableEq

/-- All tasks launched, no error recorded, context live. -/
def dlInit (tasks : List DlTask) : DlState := ⟨tasks, none, false⟩

/-- One scheduling step: some pending task returns with observed result
`r` — its own outcome, or a context-cancellation error if the shared
context was already cancelled when it aborted.  Per `errgroup`, the
first non-nil result is recorded once and cancels the shared context;
later errors are discarded. -/
inductive DlStep : DlState → DlState → Prop
  | complete (s : DlState) (t : DlTask) (r : Option Nat)
      (ht : t ∈ s.pending)
      (hr : r = t.outcome ∨ (s.cancelled = true ∧ r = some ctxCanceledErr)) :
      DlStep s
        ⟨s.pending.erase t, s.firstErr.orElse (fun _ => r),
          s.cancelled || r.isSome⟩

/-- Inductive invariant of the download group. -/
def DlInv (tasks : List DlTask) (s : DlState) : Prop :=
  s.cancelled = s.firstErr.isSome ∧
  (∀ t ∈ s.pending, t ∈ tasks) ∧
  (s.firstErr = none → ∀ t : DlTask, t.outcome.isSome = true →
    List.count t s.pending = List.count t tasks) ∧
  ((∀ t ∈ tasks, t.outcome = none) → s.firstErr = none)

theorem dlInv_init (tasks : List DlTask) : DlInv tasks (dlInit tasks) :=
  ⟨rfl, fun _ h => h, fun _ _ _ => rfl, fun _ => rfl⟩

theorem dlInv_step (tasks : List DlTask) {s s' : DlState}
    (hinv : DlInv tasks s) (hstep : DlStep s s') : DlInv tasks s' := by
  obtain ⟨i1, i2, i3, i4⟩ := hinv
  cases hstep with
  | complete t r ht hr =>
    refine ⟨?_, ?_, ?_, ?_⟩
    · show (s.cancelled || r.isSome) = (s.firstErr.orElse fun _ => r).isSome
      cases hfe : s.firstErr with
      | some e =>
        have hc : s.cancelled = true := by
          rw [i1, hfe]
          rfl
        simp [hc, Option.orElse]
      | none =>
        have hc : s.cancelled = false := by
          rw [i1, hfe]
          rfl
        simp [hc, Option.orElse]
    · intro u hu
      exact i2 u (List.mem_of_mem_erase hu)
    · intro hfe0 u hu
      have hfe' : s.firstErr.orElse (fun _ => r) = none := hfe0
      have hfe : s.firstErr = none := by
        cases hfe2 : s.firstErr with
        | none => rfl
        | some e =>
          rw [hfe2] at hfe'
          simp [Option.orElse] at hfe'
      have hrnone : r = none := by
        rw [hfe] at hfe'
        simpa [Option.orElse] using hfe'
      have hcanc : s.cancelled = false := by
        rw [i1, hfe]
        rfl
      have hrt : r = t.outcome := by
        rcases hr with h | ⟨hc, _⟩
        · exact h
        · rw [hcanc] at hc
          cases hc
      have htu : u ≠ t := by
        intro h
        subst h
        rw [← hrt, hrnone] at hu
        cases hu
      show List.count u (s.pending.erase t) = List.count u tasks
      rw [List.count_erase_of_ne htu]
      exact i3 hfe u hu
    · intro hall
      have hfe := i4 hall
      have hcanc : s.cancelled = false := by
        rw [i1, hfe]
        rfl
      have hrt : r = t.outcome := by
        rcases hr with h | ⟨hc, _⟩
        · exact h
        · rw [hcanc] at hc
          cases hc
      have hrnone : r = none := by
        rw [hrt]
        exact hall t (i2 t ht)
      show s.firstErr.orElse (fun _ => r) = none
      rw [hfe, hrnone]
      rfl

theorem dlInv_reach (tasks : List DlTask) (s : DlState)
    (h : Reach DlStep (dlInit tasks) s) : DlInv tasks s := by
  induction h with
  | refl => exact dlInv_init tasks
  | tail _ hstep ih => exact dlInv_step tasks ih hstep

/-- C4: over every complete execution of one `DownloadSnapshot`
operation's fan-out (every task returned, `pending = []`): `Wait`'s
result is `none` iff all N downloads succeed on their own; in every
reachable state the shared context is cancelled exactly when a failure
has been recorded — so the first failure cancels the context and every
sibling completing later observes the cancellation; and once the first
observed failure is recorded it never changes, so exactly one
representative error is returned to the caller. -/
theorem download_first_error_fail_fast (tasks : List DlTask) (s : DlState)
    (hreach : Reach DlStep (dlInit tasks) s) :
    (s.pending = [] →
      (s.firstErr = none ↔ ∀ t ∈ tasks, t.outcome = none)) ∧
    s.cancelled = s.firstErr.isSome ∧
    (∀ s' : DlState, DlStep s s' → ∀ e, s.firstErr = some e →
      s'.firstErr = some e) := by
  obtain ⟨i1, i2, i3, i4⟩ := dlInv_reach tasks s hreach
  refine ⟨?_, i1, ?_⟩
  · intro hpend
    constructor
    · intro hfe t htt
      by_contra hne
      have hsome : t.outcome.isSome = true := by
        cases ho : t.outcome with
        | none => exact absurd ho hne
        | some e => rfl
      have hcount := i3 hfe t hsome
      rw [hpend] at hcount
      have hpos : 0 < List.count t tasks := List.count_pos_iff.mpr htt
      simp at hcount
      omega
    · exact i4
  · intro s' hstep e hfe
    cases hstep with
    | complete t r ht hr =>
      show s.firstErr.orElse (fun _ => r) = some e
      rw [hfe]
      rfl

/-- Witness for `download_first_error_fail_fast`: two files, the
incremental one fails with error `7` and is scheduled first, the full
one then aborts with the context-cancellation error; the recorded
result is the representative error `7`, the context ends cancelled, and
the success-iff instantiates to a false equivalence on both sides. -/
theorem download_first_error_fail_fast_witness :
    ((⟨[], some 7, true⟩ : DlState).firstErr = none ↔
      ∀ t ∈ [(⟨"full", none⟩ : DlTask), ⟨"incr", some 7⟩],
        t.outcome = none) ∧
    (⟨[], some 7, true⟩ : DlState).cancelled =
      (⟨[], some 7, true⟩ : DlState).firstErr.isSome := by
  have h1 : DlStep (dlInit [⟨"full", none⟩, ⟨"incr", some 7⟩])
      ⟨[⟨"full", none⟩], some 7, true⟩ :=
    DlStep.complete _ ⟨"incr", some 7⟩ (some 7) (by decide) (Or.inl rfl)
  have h2 : DlStep (⟨[⟨"full", none⟩], some 7, true⟩ : DlState)
      ⟨[], some 7, true⟩ :=
    DlStep.complete _ ⟨"full", none⟩ (some ctxCanceledErr) (by decide)
      (Or.inr ⟨rfl, rfl⟩)
  have h := download_first_error_fail_fast
    [⟨"full", none⟩, ⟨"incr", some 7⟩] ⟨[], some 7, true⟩
    (Reach.tail (Reach.tail Reach.refl h1) h2)
  exact ⟨h.1 rfl, h.2.1⟩

/-! ## One scrape cycle's discovery + probe fan-out (`Scraper.scrape`)

`scrape` calls `DiscoverTargets` once; on error it logs and returns
without publishing.  Otherwise it launches one goroutine per target,
each of which probes its target and always sends
`ProbeResult{info, err}` on the results channel — error or not — before
decrementing the cycle's wait group. -/

/-- A published probe record (`ProbeResult` in Go): node info paired
with the probe error; the error is data, not a failure of the cycle. -/
structure ProbeResult where
  info : Option String
  err : Option Nat
deriving DecidableEq

/-- State of one cycle's fan-out: targets whose probe goroutine has not
yet published, and the results published so far (in publication
order). -/
structure ScrapeState where
  pending : List String
  published : List ProbeResult
deriving DecidableEq

/-- Entry into a cycle: a failed discovery publishes nothing and leaves
nothing pending (`scrape` logs and returns); a successful discovery
makes every target pending. -/
def scrapeInit (disc : Except Nat (List String)) : ScrapeState :=
  match disc with
  | .error _ => ⟨[], []⟩
  | .ok targets => ⟨targets, []⟩

/-- One probe goroutine completes: whichever pending target finishes
next publishes its record — whether its `err` field is set or not. -/
inductive ScrapeStep (probe : String → ProbeResult) :
    ScrapeState → ScrapeState → Prop
  | probeDone (s : ScrapeState) (t : String) (ht : t ∈ s.pending) :
      ScrapeStep probe s ⟨s.pending.erase t, s.published ++ [probe t]⟩

/-- Fan-out invariant preservation: a probe completion moves one
record from pending to published. -/
theorem scrapeInv_step (probe : String → ProbeResult) {s s' : ScrapeState}
    (hstep : ScrapeStep probe s s') (X : List ProbeResult)
    (ih : List.Perm (s.published ++ s.pending.map probe) X) :
    List.Perm (s'.published ++ s'.pending.map probe) X := by
  cases hstep with
  | probeDone t ht =>
    refine List.Perm.trans ?_ ih
    show List.Perm
      ((s.published ++ [probe t]) ++ (s.pending.erase t).map probe)
      (s.published ++ s.pending.map probe)
    have hp : List.Perm (s.pending.map probe)
        (probe t :: (s.pending.erase t).map probe) :=
      (List.perm_cons_erase ht).map probe
    have e1 : (s.published ++ [probe t]) ++ (s.pending.erase t).map probe =
        s.published ++ (probe t :: (s.pending.erase t).map probe) := by
      simp
    rw [e1]
    exact List.Perm.append_left s.published hp.symm

/-- Fan-out invariant: what is published plus what is still pending is
exactly one record per discovered target. -/
theorem scrapeInv (probe : String → ProbeResult)
    (disc : Except Nat (List String)) (s : ScrapeState)
    (hreach : Reach (ScrapeStep probe) (scrapeInit disc) s) :
    List.Perm (s.published ++ s.pending.map probe)
      ((scrapeInit disc).pending.map probe) := by
  induction hreach with
  | refl => cases disc <;> exact List.Perm.refl _
  | tail _ hstep ih => exact scrapeInv_step probe hstep _ ih

/-- C5: in every scrape cycle — for every prober behaviour `probe`,
including probes whose records carry errors: if discovery fails, no
`ProbeResult` is published (and nothing is pending, the cycle is over;
the control loop runs on regardless, see the scraper lifecycle model);
if discovery succeeds, every complete execution of the fan-out (all
probes returned) has published exactly one record per discovered
target — a permutation of one `probe t` per target `t`, so per-target
probe errors are published as data and never abort the cycle. -/
theorem scrape_one_result_per_target (probe : String → ProbeResult)
    (disc : Except Nat (List String)) (s : ScrapeState)
    (hreach : Reach (ScrapeStep probe) (scrapeInit disc) s) :
    (∀ e, disc = .error e → s.published = [] ∧ s.pending = []) ∧
    (∀ targets, disc = .ok targets → s.pending = [] →
      List.Perm s.published (targets.map probe)) := by
  constructor
  · intro e hdisc
    subst hdisc
    induction hreach with
    | refl => exact ⟨rfl, rfl⟩
    | tail _ hstep ih =>
      cases hstep with
      | probeDone t ht =>
        rw [ih.2] at ht
        cases ht
  · intro targets hdisc hpend
    have h := scrapeInv probe disc s hreach
    rw [hpend, hdisc] at h
    simpa using h

/-- Witness for `scrape_one_result_per_target`: two targets, the second
probe errors with code `9` and completes first; the two published
records are exactly one per target, in completion order. -/
theorem scrape_one_result_per_target_witness :
    List.Perm [(⟨none, some 9⟩ : ProbeResult), ⟨some "n1", none⟩]
      (["n1", "n2"].map fun t =>
        if t = "n2" then (⟨none, some 9⟩ : ProbeResult)
        else ⟨some "n1", none⟩) := by
  have h1 : ScrapeStep (fun t =>
      if t = "n2" then (⟨none, some 9⟩ : ProbeResult) else ⟨some "n1", none⟩)
      (scrapeInit (.ok ["n1", "n2"])) ⟨["n1"], [⟨none, some 9⟩]⟩ :=
    ScrapeStep.probeDone _ "n2" (by decide)
  have h2 : ScrapeStep (fun t =>
      if t = "n2" then (⟨none, some 9⟩ : ProbeResult) else ⟨some "n1", none⟩)
      ⟨["n1"], [⟨none, some 9⟩]⟩ ⟨[], [⟨none, some 9⟩, ⟨some "n1", none⟩]⟩ :=
    ScrapeStep.probeDone _ "n1" (by decide)
  exact (scrape_one_result_per_target _ (.ok ["n1", "n2"])
    ⟨[], [⟨none, some 9⟩, ⟨some "n1", none⟩]⟩
    (Reach.tail (Reach.tail Reach.refl h1) h2)).2 ["n1", "n2"] rfl rfl

/-! ## The scraper lifecycle (`Scraper.Start` / `Scraper.Close` / `Scraper.run`)

`NewScraper` creates a root context with a cancel function.  `Start`
does `s.wg.Add(1)` and launches `run` as a goroutine.  `run` loops:
derive a cancellable sub-context of the root context and launch
`scrape` as a goroutine for the new cycle, then select — on root
shutdown, cancel the sub-context and return (the deferred `wg.Done`
fires); on a tick, cancel the sub-context and loop.  `Close` calls the
root cancel and then `s.wg.Wait()`.  Crucially, `s.wg` counts only the
`run` goroutine: the `scrape` goroutines and their per-target probe
goroutines are never added to it, and a cycle's own `sync.WaitGroup` is
waited on only inside that cycle's `scrape` goroutine.

The model records launched cycles newest-first: `cycles.head?` is the
cycle of the current loop iteration. -/

/-- Position of the `run` goroutine in its loop. -/
inductive RunPC
  | loopTop
  | selecting
  | finished
deriving DecidableEq

/-- Phase of one launched `scrape` goroutine: waiting on
`DiscoverTargets`, waiting on its cycle wait group with `outstanding`
probe goroutines still running, or fully returned. -/
inductive CyclePhase
  | discovering
  | probing (outstanding : Nat)
  | done
deriving DecidableEq

/-- One launched cycle: whether its sub-context's cancel function has
been called, and its scrape goroutine's phase. -/
structure ScrapeCycle where
  ctxCancelled : Bool
  phase : CyclePhase
deriving DecidableEq

/-- Scraper lifecycle state. -/
structure ScraperState where
  started : Bool
  runAlive : Bool
  pc : RunPC
  wg : Nat
  rootCancelled : Bool
  closeCalled : Bool
  closeReturned : Bool
  tickCount : Nat
  cycles : List ScrapeCycle
deriving DecidableEq

/-- A freshly constructed scraper (`NewScraper`). -/
def scraperInit : ScraperState :=
  ⟨false, false, .loopTop, 0, false, false, false, 0, []⟩

/-- Cancel the current (most recently launched) cycle's sub-context. -/
def cancelHead : List ScrapeCycle → List ScrapeCycle
  | [] => []
  | c :: rest => ⟨true, c.phase⟩ :: rest

/-- Probe goroutines still outstanding, across all launched cycles. -/
def outstandingProbes (s : ScraperState) : Nat :=
  (s.cycles.map fun c =>
    match c.phase with
    | .probing n => n
    | _ => 0).sum

/-- Interleaving semantics of the scraper: steps of the `run` goroutine
(`start`, `launch`, `tick`, `shutdownSignal`), of `Close`
(`closeCall`, `closeReturn`), and of the scrape/probe goroutines of any
launched cycle (`discoverOk` with `n` discovered targets,
`discoverFail`, `probeDone`, `scrapeReturn`). -/
inductive ScraperStep : ScraperState → ScraperState → Prop
  | start (s : ScraperState) (h : s.started = false) :
      ScraperStep s
        { s with started := true, runAlive := true, pc := .loopTop,
                 wg := s.wg + 1 }
  | launch (s : ScraperState) (h1 : s.runAlive = true)
      (h2 : s.pc = .loopTop) :
      ScraperStep s
        { s with cycles := ⟨false, .discovering⟩ :: s.cycles,
                 pc := .selecting }
  | tick (s : ScraperState) (h1 : s.runAlive = true)
      (h2 : s.pc = .selecting) :
      ScraperStep s
        { s with cycles := cancelHead s.cycles,
                 tickCount := s.tickCount + 1, pc := .loopTop }
  | shutdownSignal (s : ScraperState) (h1 : s.runAlive = true)
      (h2 : s.pc = .selecting) (h3 : s.rootCancelled = true) :
      ScraperStep s
        { s with cycles := cancelHead s.cycles, pc := .finished,
                 runAlive := false, wg := s.wg - 1 }
  | closeCall (s : ScraperState) (h1 : s.started = true)
      (h2 : s.closeCalled = false) :
      ScraperStep s { s with closeCalled := true, rootCancelled := true }
  | closeReturn (s : ScraperState) (h1 : s.closeCalled = true)
      (h2 : s.wg = 0) :
      ScraperStep s { s with closeReturned := true }
  | discoverOk (s : ScraperState) (i n : Nat) (c : ScrapeCycle)
      (hc : s.cycles[i]? = some c) (hp : c.phase = .discovering) :
      ScraperStep s
        { s with cycles := s.cycles.set i ⟨c.ctxCancelled, .probing n⟩ }
  | discoverFail (s : ScraperState) (i : Nat) (c : ScrapeCycle)
      (hc : s.cycles[i]? = some c) (hp : c.phase = .discovering) :
      ScraperStep s
        { s with cycles := s.cycles.set i ⟨c.ctxCancelled, .done⟩ }
  | probeDone (s : ScraperState) (i n : Nat) (c : ScrapeCycle)
      (hc : s.cycles[i]? = some c) (hp : c.phase = .probing (n + 1)) :
      ScraperStep s
        { s with cycles := s.cycles.set i ⟨c.ctxCancelled, .probing n⟩ }
  | scrapeReturn (s : ScraperState) (i : Nat) (c : ScrapeCycle)
      (hc : s.cycles[i]? = some c) (hp : c.phase = .probing 0) :
      ScraperStep s
        { s with cycles := s.cycles.set i ⟨c.ctxCancelled, .done⟩ }

theorem cancelHead_length (cs : List ScrapeCycle) :
    (cancelHead cs).length = cs.length := by
  cases cs <;> rfl

theorem cancelHead_getElem_succ (cs : List ScrapeCycle) (i : Nat) :
    (cancelHead cs)[i + 1]? = cs[i + 1]? := by
  cases cs <;> rfl

theorem cancelHead_head_cancelled (cs : List ScrapeCycle) (c : ScrapeCycle)
    (h : (cancelHead cs)[0]? = some c) : c.ctxCancelled = true := by
  cases cs with
  | nil => cases h
  | cons hd tl =>
    simp only [cancelHead, List.getElem?_cons_zero] at h
    injection h with h2
    rw [← h2]

/-- Inductive invariant of the scraper lifecycle: the wait group counts
exactly the live `run` goroutine; `Close` implies the root context is
cancelled; `Close` returns only with the wait group at zero; the loop
launches one cycle per iteration (so the cycle count tracks the tick
count); and every cycle older than the current one has its sub-context
cancelled — all of them once the loop is back at the top. -/
def ScraperInv (s : ScraperState) : Prop :=
  s.wg = (if s.runAlive = true then 1 else 0) ∧
  (s.closeCalled = true → s.started = true ∧ s.rootCancelled = true) ∧
  (s.closeReturned = true → s.closeCalled = true ∧ s.wg = 0) ∧
  (s.runAlive = true → s.started = true) ∧
  (s.started = false → s.cycles = [] ∧ s.tickCount = 0 ∧
    s.runAlive = false ∧ s.pc = .loopTop ∧ s.closeCalled = false ∧
    s.closeReturned = false) ∧
  (s.pc = .loopTop → s.cycles.length = s.tickCount) ∧
  (s.pc ≠ .loopTop → s.cycles.length = s.tickCount + 1) ∧
  (∀ (i : Nat) (c : ScrapeCycle), 1 ≤ i → s.cycles[i]? = some c →
    c.ctxCancelled = true) ∧
  (s.pc = .loopTop → ∀ (i : Nat) (c : ScrapeCycle),
    s.cycles[i]? = some c → c.ctxCancelled = true) ∧
  (s.pc = .finished → s.runAlive = false)

theorem scraperInv_init : ScraperInv scraperInit := by
  refine ⟨rfl, ?_, ?_, ?_, ?_, ?_, ?_, ?_, ?_, ?_⟩
  · intro h
    cases h
  · intro h
    cases h
  · intro h
    cases h
  · intro _
    exact ⟨rfl, rfl, rfl, rfl, rfl, rfl⟩
  · intro _
    rfl
  · intro h
    exact absurd rfl h
  · intro i c _ hg
    simp [scraperInit] at hg
  · intro _ i c hg
    simp [scraperInit] at hg
  · intro h
    cases h

/-- Updating one cycle's phase (keeping its cancellation flag)
preserves the invariant. -/
theorem scraperInv_setPhase (s : ScraperState) (i : Nat) (c : ScrapeCycle)
    (hc : s.cycles[i]? = some c) (ph : CyclePhase) (hinv : ScraperInv s) :
    ScraperInv
      { s with cycles := s.cycles.set i ⟨c.ctxCancelled, ph⟩ } := by
  obtain ⟨i1, i2, i3, i4, i5, i6, i7, i8, i9, i10⟩ := hinv
  have hlen : i < s.cycles.length := (List.getElem?_eq_some_iff.mp hc).1
  refine ⟨i1, i2, i3, i4, ?_, ?_, ?_, ?_, ?_, i10⟩
  · intro h
    have h0 := (i5 h).1
    rw [h0] at hc
    simp at hc
  · intro hpc
    show (s.cycles.set i _).length = s.tickCount
    rw [List.length_set]
    exact i6 hpc
  · intro hpc
    show (s.cycles.set i _).length = s.tickCount + 1
    rw [List.length_set]
    exact i7 hpc
  · intro j c' hj hg
    show c'.ctxCancelled = true
    by_cases hij : i = j
    · subst hij
      rw [List.getElem?_set_self hlen] at hg
      injection hg with h2
      rw [← h2]
      show c.ctxCancelled = true
      exact i8 i c hj hc
    · rw [List.getElem?_set_ne hij] at hg
      exact i8 j c' hj hg
  · intro hpc j c' hg
    show c'.ctxCancelled = true
    by_cases hij : i = j
    · subst hij
      rw [List.getElem?_set_self hlen] at hg
      injection hg with h2
      rw [← h2]
      show c.ctxCancelled = true
      exact i9 hpc i c hc
    · rw [List.getElem?_set_ne hij] at hg
      exact i9 hpc j c' hg

theorem scraperInv_step {s s' : ScraperState} (hinv : ScraperInv s)
    (hstep : ScraperStep s s') : ScraperInv s' := by
  cases hstep with
  | discoverOk i n c hc hp => exact scraperInv_setPhase s i c hc _ hinv
  | discoverFail i c hc hp => exact scraperInv_setPhase s i c hc _ hinv
  | probeDone i n c hc hp => exact scraperInv_setPhase s i c hc _ hinv
  | scrapeReturn i c hc hp => exact scraperInv_setPhase s i c hc _ hinv
  | start h =>
    obtain ⟨i1, i2, i3, i4, i5, i6, i7, i8, i9, i10⟩ := hinv
    obtain ⟨hcy, htc, hra, hpc, hcc, hcr⟩ := i5 h
    have hw0 : s.wg = 0 := by
      rw [i1, hra]
      rfl
    refine ⟨?_, ?_, ?_, ?_, ?_, ?_, ?_, ?_, ?_, ?_⟩
    · show s.wg + 1 = (if true = true then 1 else 0)
      rw [hw0]
      rfl
    · intro h'
      rw [show s.closeCalled = false from hcc] at h'
      cases h'
    · intro h'
      rw [show s.closeReturned = false from hcr] at h'
      cases h'
    · intro _
      rfl
    · intro h'
      cases h'
    · intro _
      show s.cycles.length = s.tickCount
      rw [hcy, htc]
      rfl
    · intro h'
      exact absurd rfl h'
    · intro j c' hj hg
      rw [show s.cycles = [] from hcy] at hg
      simp at hg
    · intro _ j c' hg
      rw [show s.cycles = [] from hcy] at hg
      simp at hg
    · intro h'
      cases h'
  | launch h1 h2 =>
    obtain ⟨i1, i2, i3, i4, i5, i6, i7, i8, i9, i10⟩ := hinv
    refine ⟨i1, i2, i3, i4, ?_, ?_, ?_, ?_, ?_, ?_⟩
    · intro h'
      rw [i4 h1] at h'
      cases h'
    · intro h'
      cases h'
    · intro _
      show (⟨false, .discovering⟩ :: s.cycles).length = s.tickCount + 1
      rw [List.length_cons, i6 h2]
    · intro j c' hj hg
      cases j with
      | zero => omega
      | succ j' =>
        rw [List.getElem?_cons_succ] at hg
        exact i9 h2 j' c' hg
    · intro h'
      cases h'
    · intro h'
      cases h'
  | tick h1 h2 =>
    obtain ⟨i1, i2, i3, i4, i5, i6, i7, i8, i9, i10⟩ := hinv
    have hne : s.pc ≠ .loopTop := by
      rw [h2]
      decide
    refine ⟨i1, i2, i3, i4, ?_, ?_, ?_, ?_, ?_, ?_⟩
    · intro h'
      rw [i4 h1] at h'
      cases h'
    · intro _
      show (cancelHead s.cycles).length = s.tickCount + 1
      rw [cancelHead_length]
      exact i7 hne
    · intro h'
      exact absurd rfl h'
    · intro j c' hj hg
      cases j with
      | zero => omega
      | succ j' =>
        rw [cancelHead_getElem_succ] at hg
        exact i8 (j' + 1) c' (by omega) hg
    · intro _ j c' hg
      cases j with
      | zero => exact cancelHead_head_cancelled s.cycles c' hg
      | succ j' =>
        rw [cancelHead_getElem_succ] at hg
        exact i8 (j' + 1) c' (by omega) hg
    · intro h'
      cases h'
  | shutdownSignal h1 h2 h3 =>
    obtain ⟨i1, i2, i3, i4, i5, i6, i7, i8, i9, i10⟩ := hinv
    have hne : s.pc ≠ .loopTop := by
      rw [h2]
      decide
    have hw1 : s.wg = 1 := by
      rw [i1, h1]
      rfl
    refine ⟨?_, i2, ?_, ?_, ?_, ?_, ?_, ?_, ?_, ?_⟩
    · show s.wg - 1 = (if false = true then 1 else 0)
      rw [hw1]
      rfl
    · intro hcr
      refine ⟨(i3 hcr).1, ?_⟩
      show s.wg - 1 = 0
      rw [hw1]
    · intro h'
      cases h'
    · intro h'
      rw [i4 h1] at h'
      cases h'
    · intro h'
      cases h'
    · intro _
      show (cancelHead s.cycles).length = s.tickCount + 1
      rw [cancelHead_length]
      exact i7 hne
    · intro j c' hj hg
      cases j with
      | zero => omega
      | succ j' =>
        rw [cancelHead_getElem_succ] at hg
        exact i8 (j' + 1) c' (by omega) hg
    · intro h'
      cases h'
    · intro _
      rfl
  | closeCall h1 h2 =>
    obtain ⟨i1, i2, i3, i4, i5, i6, i7, i8, i9, i10⟩ := hinv
    refine ⟨i1, ?_, ?_, i4, ?_, i6, i7, i8, i9, i10⟩
    · intro _
      exact ⟨h1, rfl⟩
    · intro hcr
      exact ⟨rfl, (i3 hcr).2⟩
    · intro h'
      rw [h1] at h'
      cases h'
  | closeReturn h1 h2 =>
    obtain ⟨i1, i2, i3, i4, i5, i6, i7, i8, i9, i10⟩ := hinv
    refine ⟨i1, i2, ?_, i4, ?_, i6, i7, i8, i9, i10⟩
    · intro _
      exact ⟨h1, h2⟩
    · intro h'
      have hf := (i5 h').2.2.2.2.1
      rw [hf] at h1
      cases h1

theorem scraperInv_reach (s : ScraperState)
    (h : Reach ScraperStep scraperInit s) : ScraperInv s := by
  induction h with
  | refl => exact scraperInv_init
  | tail _ hstep ih => exact scraperInv_step ih hstep

/-- C1 amended: after `Close()` returns, the control loop (`run`
goroutine, the only goroutine `s.wg` tracks) has terminated, the wait
group is at zero and the root context is cancelled — hence every
launched cycle's sub-context is done.  Scrape and probe goroutines are
cancelled but not awaited: they may remain outstanding when `Close`
returns (see the counterexample), so "zero probe tasks outstanding"
does not hold. -/
theorem close_waits_for_control_loop_only (s : ScraperState)
    (hreach : Reach ScraperStep scraperInit s)
    (hclosed : s.closeReturned = true) :
    s.runAlive = false ∧ s.wg = 0 ∧ s.rootCancelled = true ∧
    ∀ c ∈ s.cycles, (c.ctxCancelled || s.rootCancelled) = true := by
  obtain ⟨i1, i2, i3, i4, i5, i6, i7, i8, i9, i10⟩ := scraperInv_reach s hreach
  obtain ⟨hcc, hwg⟩ := i3 hclosed
  obtain ⟨hst, hroot⟩ := i2 hcc
  have hra : s.runAlive = false := by
    cases hb : s.runAlive with
    | false => rfl
    | true =>
      rw [i1, hb] at hwg
      simp at hwg
  refine ⟨hra, hwg, hroot, ?_⟩
  intro c _
  rw [hroot]
  simp

/-- C1 as stated is false: an execution in which a cycle's discovery
succeeded and one probe is in flight when `Close` is called — `run`
sees the shutdown signal, cancels the cycle's sub-context and returns;
`Close`'s `wg.Wait()` then returns while the probe goroutine is still
outstanding (`s.wg` never counted scrape or probe goroutines). -/
theorem close_outstanding_probe_counterexample :
    Reach ScraperStep scraperInit
      ⟨true, false, .finished, 0, true, true, true, 0,
        [⟨true, .probing 1⟩]⟩ ∧
    (⟨true, false, .finished, 0, true, true, true, 0,
        [⟨true, .probing 1⟩]⟩ : ScraperState).closeReturned = true ∧
    outstandingProbes
      ⟨true, false, .finished, 0, true, true, true, 0,
        [⟨true, .probing 1⟩]⟩ = 1 := by
  refine ⟨?_, rfl, rfl⟩
  have h1 : ScraperStep scraperInit
      ⟨true, true, .loopTop, 1, false, false, false, 0, []⟩ :=
    ScraperStep.start scraperInit rfl
  have h2 : ScraperStep
      ⟨true, true, .loopTop, 1, false, false, false, 0, []⟩
      ⟨true, true, .selecting, 1, false, false, false, 0,
        [⟨false, .discovering⟩]⟩ :=
    ScraperStep.launch _ rfl rfl
  have h3 : ScraperStep
      ⟨true, true, .selecting, 1, false, false, false, 0,
        [⟨false, .discovering⟩]⟩
      ⟨true, true, .selecting, 1, false, false, false, 0,
        [⟨false, .probing 1⟩]⟩ :=
    ScraperStep.discoverOk _ 0 1 ⟨false, .discovering⟩ rfl rfl
  have h4 : ScraperStep
      ⟨true, true, .selecting, 1, false, false, false, 0,
        [⟨false, .probing 1⟩]⟩
      ⟨true, true, .selecting, 1, true, true, false, 0,
        [⟨false, .probing 1⟩]⟩ :=
    ScraperStep.closeCall _ rfl rfl
  have h5 : ScraperStep
      ⟨true, true, .selecting, 1, true, true, false, 0,
        [⟨false, .probing 1⟩]⟩
      ⟨true, false, .finished, 0, true, true, false, 0,
        [⟨true, .probing 1⟩]⟩ :=
    ScraperStep.shutdownSignal _ rfl rfl rfl
  have h6 : ScraperStep
      ⟨true, false, .finished, 0, true, true, false, 0,
        [⟨true, .probing 1⟩]⟩
      ⟨true, false, .finished, 0, true, true, true, 0,
        [⟨true, .probing 1⟩]⟩ :=
    ScraperStep.closeReturn _ rfl rfl
  exact Reach.tail (Reach.tail (Reach.tail (Reach.tail (Reach.tail
    (Reach.tail Reach.refl h1) h2) h3) h4) h5) h6

/-- Witness for `close_waits_for_control_loop_only`: a shutdown during
a cycle still in discovery — after `Close` returns, the run goroutine
is gone and the wait group is empty. -/
theorem close_waits_for_control_loop_only_witness :
    (⟨true, false, .finished, 0, true, true, true, 0,
      [⟨true, .discovering⟩]⟩ : ScraperState).runAlive = false ∧
    (⟨true, false, .finished, 0, true, true, true, 0,
      [⟨true, .discovering⟩]⟩ : ScraperState).wg = 0 := by
  have h1 : ScraperStep scraperInit
      ⟨true, true, .loopTop, 1, false, false, false, 0, []⟩ :=
    ScraperStep.start scraperInit rfl
  have h2 : ScraperStep
      ⟨true, true, .loopTop, 1, false, false, false, 0, []⟩
      ⟨true, true, .selecting, 1, false, false, false, 0,
        [⟨false, .discovering⟩]⟩ :=
    ScraperStep.launch _ rfl rfl
  have h3 : ScraperStep
      ⟨true, true, .selecting, 1, false, false, false, 0,
        [⟨false, .discovering⟩]⟩
      ⟨true, true, .selecting, 1, true, true, false, 0,
        [⟨false, .discovering⟩]⟩ :=
    ScraperStep.closeCall _ rfl rfl
  have h4 : ScraperStep
      ⟨true, true, .selecting, 1, true, true, false, 0,
        [⟨false, .discovering⟩]⟩
      ⟨true, false, .finished, 0, true, true, false, 0,
        [⟨true, .discovering⟩]⟩ :=
    ScraperStep.shutdownSignal _ rfl rfl rfl
  have h5 : ScraperStep
      ⟨true, false, .finished, 0, true, true, false, 0,
        [⟨true, .discovering⟩]⟩
      ⟨true, false, .finished, 0, true, true, true, 0,
        [⟨true, .discovering⟩]⟩ :=
    ScraperStep.closeReturn _ rfl rfl
  have h := close_waits_for_control_loop_only
    ⟨true, false, .finished, 0, true, true, true, 0,
      [⟨true, .discovering⟩]⟩
    (Reach.tail (Reach.tail (Reach.tail (Reach.tail
      (Reach.tail Reach.refl h1) h2) h3) h4) h5) rfl
  exact ⟨h.1, h.2.1⟩

/-- C10: in every reachable state, the number of consumed ticks never
exceeds the number of launched cycles (the loop body launches a cycle
before it ever selects, so the first cycle is launched before the first
tick is consumed, and each tick is followed by a fresh launch before
the next select); every cycle older than the current one has its
sub-context cancelled; and whenever the loop is back at the top — as it
is right after a tick is consumed — every previously launched cycle's
sub-context has been cancelled before the new cycle starts. -/
theorem run_immediate_first_cycle_and_tick_relaunch (s : ScraperState)
    (hreach : Reach ScraperStep scraperInit s) :
    s.tickCount ≤ s.cycles.length ∧
    (1 ≤ s.tickCount → 1 ≤ s.cycles.length) ∧
    (∀ (i : Nat) (c : ScrapeCycle), 1 ≤ i → s.cycles[i]? = some c →
      c.ctxCancelled = true) ∧
    (s.pc = RunPC.loopTop → ∀ c ∈ s.cycles, c.ctxCancelled = true) := by
  obtain ⟨i1, i2, i3, i4, i5, i6, i7, i8, i9, i10⟩ := scraperInv_reach s hreach
  have hle : s.tickCount ≤ s.cycles.length := by
    by_cases h : s.pc = .loopTop
    · have := i6 h
      omega
    · have := i7 h
      omega
  refine ⟨hle, fun h => le_trans h hle, i8, ?_⟩
  intro hpc c hc
  obtain ⟨i', hi', hgi⟩ := List.getElem_of_mem hc
  exact i9 hpc i' c (by rw [List.getElem?_eq_getElem hi', hgi])

/-- Witness for `run_immediate_first_cycle_and_tick_relaunch`: after
start, launch, one tick and the relaunch, one tick has been consumed
against two launched cycles, and the older cycle's sub-context is
cancelled. -/
theorem run_immediate_first_cycle_and_tick_relaunch_witness :
    (⟨true, true, .selecting, 1, false, false, false, 1,
      [⟨false, .discovering⟩, ⟨true, .discovering⟩]⟩ :
        ScraperState).tickCount ≤
      (⟨true, true, .selecting, 1, false, false, false, 1,
        [⟨false, .discovering⟩, ⟨true, .discovering⟩]⟩ :
          ScraperState).cycles.length ∧
    (⟨true, .discovering⟩ : ScrapeCycle).ctxCancelled = true := by
  have h1 : ScraperStep scraperInit
      ⟨true, true, .loopTop, 1, false, false, false, 0, []⟩ :=
    ScraperStep.start scraperInit rfl
  have h2 : ScraperStep
      ⟨true, true, .loopTop, 1, false, false, false, 0, []⟩
      ⟨true, true, .selecting, 1, false, false, false, 0,
        [⟨false, .discovering⟩]⟩ :=
    ScraperStep.launch _ rfl rfl
  have h3 : ScraperStep
      ⟨true, true, .selecting, 1, false, false, false, 0,
        [⟨false, .discovering⟩]⟩
      ⟨true, true, .loopTop, 1, false, false, false, 1,
        [⟨true, .discovering⟩]⟩ :=
    ScraperStep.tick _ rfl rfl
  have h4 : ScraperStep
      ⟨true, true, .loopTop, 1, false, false, false, 1,
        [⟨true, .discovering⟩]⟩
      ⟨true, true, .selecting, 1, false, false, false, 1,
        [⟨false, .discovering⟩, ⟨true, .discovering⟩]⟩ :=
    ScraperStep.launch _ rfl rfl
  have h := run_immediate_first_cycle_and_tick_relaunch
    ⟨true, true, .selecting, 1, false, false, false, 1,
      [⟨false, .discovering⟩, ⟨true, .discovering⟩]⟩
    (Reach.tail (Reach.tail (Reach.tail
      (Reach.tail Reach.refl h1) h2) h3) h4)
  exact ⟨h.1, h.2.2.1 1 ⟨true, .discovering⟩ (by omega) rfl⟩
